import Mathlib

/-!
Verification of the mcp-sentinel incident pipeline.

This file shallowly embeds the core of the repository in Lean:

* `models.py` — `Resource.dedupe_key`, `_parse_duration_seconds`;
* `dispatcher/prometheus.py` — the card index and `dispatch`;
* `mcp_integration/registry.py` — identifier grouping and
  `_derive_allowed_tools` / `resolve`;
* `watchers/prometheus.py` — `_matches_filters` and the resource
  construction in `_handle_alert`;
* `sinks/__init__.py` — `SinkDispatcher.emit`;
* `agent/orchestrator.py` — the connect / run / cleanup skeleton of
  `run_incident`.

Python dictionaries are embedded as insertion-ordered association lists
(`PyDict`): inserting an existing key replaces the value in place, a new
key is appended.  Wallclock instants (`time.time()` floats) are embedded
as exact rationals; raised exceptions are embedded as `Except` /
`Option` results.
-/

/-- Insertion-ordered string-keyed dictionary, as Python's `dict`. -/
abbrev PyDict (α : Type) := List (String × α)

/-- `d[k] = v` on a Python dict: replace in place if present, else append. -/
def dictInsert (k : String) (v : α) : PyDict α → PyDict α
  | [] => [(k, v)]
  | (k', v') :: rest =>
      if k' = k then (k, v) :: rest else (k', v') :: dictInsert k v rest

/-- `d.get(k)` on a Python dict. -/
def dictGet : PyDict α → String → Option α
  | [], _ => none
  | (k', v) :: rest, k => if k' = k then some v else dictGet rest k

/-- Build a dict from a pair list, as a Python dict comprehension or
`dict(pairs)` does: later pairs with the same key overwrite earlier ones. -/
def dictFromPairs (ps : List (String × α)) : PyDict α :=
  ps.foldl (fun d p => dictInsert p.1 p.2 d) []

/-- `{**a, **b}` on Python dicts: entries of `b` override those of `a`. -/
def dictMerge (a b : PyDict α) : PyDict α :=
  b.foldl (fun d p => dictInsert p.1 p.2 d) a

theorem dictGet_insert_self (d : PyDict α) (k : String) (v : α) :
    dictGet (dictInsert k v d) k = some v := by
  induction d with
  | nil => simp [dictInsert, dictGet]
  | cons p rest ih =>
      obtain ⟨k', v'⟩ := p
      by_cases h : k' = k <;> simp [dictInsert, dictGet, h, ih]

theorem dictGet_insert_ne (d : PyDict α) (k k' : String) (v : α) (h : k' ≠ k) :
    dictGet (dictInsert k v d) k' = dictGet d k' := by
  induction d with
  | nil => simp [dictInsert, dictGet, Ne.symm h]
  | cons p rest ih =>
      obtain ⟨k₀, v₀⟩ := p
      by_cases h₀ : k₀ = k
      · subst h₀
        simp [dictInsert, dictGet, Ne.symm h]
      · by_cases h₁ : k₀ = k'
        · simp [dictInsert, dictGet, h₀, h₁, h]
        · simp [dictInsert, dictGet, h₀, h₁, ih]

/-- Looking up a key in a dict built by left-to-right insertion returns the
value of the last pair carrying that key (the first one in the reversed
list), falling back to the seed dict. -/
theorem dictGet_foldl_insert (ps : List (String × α)) (d : PyDict α) (k : String) :
    dictGet (ps.foldl (fun d p => dictInsert p.1 p.2 d) d) k =
      match ps.reverse.find? (fun p => p.1 = k) with
      | some p => some p.2
      | none => dictGet d k := by
  induction ps generalizing d with
  | nil => simp
  | cons p rest ih =>
      rw [List.foldl_cons, ih, List.reverse_cons, List.find?_append]
      cases hrest : rest.reverse.find? (fun p => p.1 = k) with
      | some q => simp
      | none =>
          by_cases h : p.1 = k
          · simp [List.find?, h, dictGet_insert_self]
          · simp [List.find?, h, dictGet_insert_ne _ _ _ _ (Ne.symm h)]

theorem dictGet_dictFromPairs (ps : List (String × α)) (k : String) :
    dictGet (dictFromPairs ps) k =
      match ps.reverse.find? (fun p => p.1 = k) with
      | some p => some p.2
      | none => none := by
  unfold dictFromPairs
  rw [dictGet_foldl_insert]
  cases ps.reverse.find? (fun p => p.1 = k) <;> simp [dictGet]

theorem dictGet_dictMerge (a b : PyDict α) (k : String) :
    dictGet (dictMerge a b) k =
      match b.reverse.find? (fun p => p.1 = k) with
      | some p => some p.2
      | none => dictGet a k := by
  unfold dictMerge
  exact dictGet_foldl_insert b a k

theorem dictGet_eq_none_of_not_key (d : PyDict α) (k : String)
    (h : k ∉ d.map Prod.fst) : dictGet d k = none := by
  induction d with
  | nil => rfl
  | cons p rest ih =>
      simp only [List.map_cons, List.mem_cons, not_or] at h
      obtain ⟨h1, h2⟩ := h
      simp only [dictGet]
      rw [if_neg (fun hh => h1 hh.symm)]
      exact ih h2

/-- On a dict with distinct keys (every real Python dict), the last and the
first occurrence of a key coincide, so reverse-find is plain lookup. -/
theorem find?_reverse_map_snd (b : PyDict α) (k : String)
    (hnd : (b.map Prod.fst).Nodup) :
    (b.reverse.find? (fun p => p.1 = k)).map Prod.snd = dictGet b k := by
  induction b with
  | nil => simp [dictGet]
  | cons p rest ih =>
      have hnd1 : (p.1 :: rest.map Prod.fst).Nodup := by simpa using hnd
      have hk : p.1 ∉ rest.map Prod.fst := (List.nodup_cons.mp hnd1).1
      have hnd' : (rest.map Prod.fst).Nodup := (List.nodup_cons.mp hnd1).2
      rw [List.reverse_cons, List.find?_append]
      by_cases h : p.1 = k
      · have hnone : rest.reverse.find? (fun q => q.1 = k) = none := by
          rw [List.find?_eq_none]
          intro x hx
          simp only [decide_eq_true_eq]
          intro hxk
          exact hk (h ▸ hxk ▸ List.mem_map_of_mem Prod.fst (List.mem_reverse.mp hx))
        rw [hnone]
        simp [List.find?, h, dictGet]
      · simp only [dictGet]
        rw [if_neg h, ← ih hnd']
        cases hr : rest.reverse.find? (fun q => q.1 = k) with
        | some q => simp
        | none => simp [List.find?, h]

/-- `{**a, **b}` lookup when `b` has distinct keys: `b`'s entry wins,
otherwise fall back to `a`. -/
theorem dictGet_dictMerge_nodup (a b : PyDict α) (k : String)
    (hnd : (b.map Prod.fst).Nodup) :
    dictGet (dictMerge a b) k = (dictGet b k).or (dictGet a k) := by
  rw [dictGet_dictMerge, ← find?_reverse_map_snd b k hnd]
  cases b.reverse.find? (fun p => p.1 = k) <;> simp

/-! ### `models.py` — `Resource` and `dedupe_key` -/

/-- `Resource` from `models.py`: the triggering resource of an incident. -/
structure Resource where
  type : String
  name : String
  labels : PyDict String
  annotations : PyDict String
  state : Option String := none
  value : Option String := none
  timestamp : Option String := none
  deriving DecidableEq, Repr

/-- Python's tuple comparison on `(key, value)` pairs, as used by
`sorted(d.items())`: lexicographic, key first. -/
def pairLe (a b : String × String) : Bool :=
  if a.1 = b.1 then a.2 ≤ b.2 else a.1 < b.1

/-- `sorted(d.items())`. -/
def sortedPairs (l : List (String × String)) : List (String × String) :=
  l.mergeSort pairLe

/-- `",".join(f"k=v" for (k, v) in sorted(d.items()))` (the f-string spelled
out as plain concatenation). -/
def joinPairs (l : List (String × String)) : String :=
  String.intercalate "," ((sortedPairs l).map (fun p => p.1 ++ "=" ++ p.2))

/-- `Resource.dedupe_key` from `models.py`. -/
def dedupeKey (r : Resource) : String :=
  let labelPairs := joinPairs r.labels
  let annotationPairs := joinPairs r.annotations
  let parts : List String :=
    [r.type, r.name, labelPairs, annotationPairs] ++
      (match r.timestamp with
        | some t => if t = "" then [] else [t]
        | none => [])
  String.intercalate "|" (parts.filter (fun p => p ≠ ""))

theorem pairLe_total (a b : String × String) : pairLe a b || pairLe b a := by
  unfold pairLe
  by_cases h : a.1 = b.1
  · simp [h, le_total]
  · have h' : b.1 ≠ a.1 := fun hh => h hh.symm
    rcases lt_or_gt_of_ne h with hlt | hgt
    · simp [h, h', hlt]
    · simp [h, h', hgt]

theorem pairLe_trans (a b c : String × String) :
    pairLe a b → pairLe b c → pairLe a c := by
  unfold pairLe
  by_cases hab : a.1 = b.1 <;> by_cases hbc : b.1 = c.1
  · have hac : a.1 = c.1 := hab.trans hbc
    simp only [if_pos hab, if_pos hbc, if_pos hac, decide_eq_true_eq]
    exact le_trans
  · have hac : a.1 ≠ c.1 := fun hh => hbc (hab.symm.trans hh)
    simp only [if_pos hab, if_neg hbc, if_neg hac, decide_eq_true_eq]
    intro _ h2
    rw [hab]
    exact h2
  · have hac : a.1 ≠ c.1 := fun hh => hab (hh.trans hbc.symm)
    simp only [if_neg hab, if_pos hbc, if_neg hac, decide_eq_true_eq]
    intro h1 _
    rw [← hbc]
    exact h1
  · by_cases hac : a.1 = c.1
    · simp only [if_neg hab, if_neg hbc, if_pos hac, decide_eq_true_eq]
      intro h1 h2
      exact absurd (h1.trans h2) (by rw [hac]; exact lt_irrefl c.1)
    · simp only [if_neg hab, if_neg hbc, if_neg hac, decide_eq_true_eq]
      exact lt_trans

theorem pairLe_antisymm (a b : String × String) :
    pairLe a b = true → pairLe b a = true → a = b := by
  unfold pairLe
  by_cases hab : a.1 = b.1
  · simp only [if_pos hab, if_pos hab.symm, decide_eq_true_eq]
    intro h1 h2
    exact Prod.ext hab (le_antisymm h1 h2)
  · have hba : b.1 ≠ a.1 := fun hh => hab hh.symm
    simp only [if_neg hab, if_neg hba, decide_eq_true_eq]
    intro h1 h2
    exact absurd h2 (lt_asymm h1)

/-- `sorted` is insensitive to the input order: permuted pair lists sort to
the same list. -/
theorem sortedPairs_eq_of_perm {l1 l2 : List (String × String)}
    (h : l1.Perm l2) : sortedPairs l1 = sortedPairs l2 := by
  haveI : IsAntisymm (String × String) (fun a b => pairLe a b = true) :=
    ⟨pairLe_antisymm⟩
  apply List.eq_of_perm_of_sorted (r := fun a b => pairLe a b = true)
  · exact (List.mergeSort_perm l1 _).trans (h.trans (List.mergeSort_perm l2 _).symm)
  · exact List.sorted_mergeSort
      (fun a b c h1 h2 => pairLe_trans a b c h1 h2)
      (fun a b => pairLe_total a b) l1
  · exact List.sorted_mergeSort
      (fun a b c h1 h2 => pairLe_trans a b c h1 h2)
      (fun a b => pairLe_total a b) l2

/-- C7 — `Resource.dedupe_key` is deterministic: permuting the insertion
order of `labels` or `annotations` (all other fields equal) yields the
identical key string. -/
theorem dedupeKey_invariant_under_perm (r1 r2 : Resource)
    (ht : r1.type = r2.type) (hn : r1.name = r2.name)
    (hts : r1.timestamp = r2.timestamp)
    (hl : r1.labels.Perm r2.labels)
    (ha : r1.annotations.Perm r2.annotations) :
    dedupeKey r1 = dedupeKey r2 := by
  have hjl : joinPairs r1.labels = joinPairs r2.labels := by
    unfold joinPairs
    rw [sortedPairs_eq_of_perm hl]
  have hja : joinPairs r1.annotations = joinPairs r2.annotations := by
    unfold joinPairs
    rw [sortedPairs_eq_of_perm ha]
  unfold dedupeKey
  rw [ht, hn, hts, hjl, hja]

/-- Concrete resource used to witness C7: labels and annotations given in
one insertion order. -/
def resourcePermA : Resource :=
  { type := "prometheus_alert", name := "web-tier"
    labels := [("alertname", "HighLatency"), ("severity", "page")]
    annotations := [("summary", "p99 high"), ("runbook", "rb1")]
    timestamp := some "2026-01-01T00:00:00Z" }

/-- The same resource with labels and annotations permuted. -/
def resourcePermB : Resource :=
  { type := "prometheus_alert", name := "web-tier"
    labels := [("severity", "page"), ("alertname", "HighLatency")]
    annotations := [("runbook", "rb1"), ("summary", "p99 high")]
    timestamp := some "2026-01-01T00:00:00Z" }

/-- Witness for C7 at a concrete pair of permuted resources. -/
theorem dedupeKey_invariant_under_perm_witness :
    dedupeKey resourcePermA = dedupeKey resourcePermB :=
  dedupeKey_invariant_under_perm resourcePermA resourcePermB
    rfl rfl rfl (by decide) (by decide)

/-! ### `models.py` — cards, settings, dispatcher results -/

/-- `IncidentCard` from `models.py`. -/
structure IncidentCard where
  name : String
  resource : String
  promptTemplate : String
  model : Option String := none
  tools : List String := []
  sinks : List String := []
  maxIterations : Nat := 6
  deriving DecidableEq, Repr

/-- `IncidentNotification` from `models.py`; the raw payload is opaque to
the dispatcher and embedded as a string dict. -/
structure IncidentNotification where
  resource : Resource
  rawPayload : PyDict String := []
  deriving DecidableEq, Repr

/-- `PrometheusDispatcherSettings` from `models.py` (validated bounds:
`queue_size ≥ 1`, `dedupe_ttl_seconds ≥ 10`, `worker_concurrency ≥ 1`). -/
structure PrometheusDispatcherSettings where
  queueSize : Nat := 100
  dedupeTtlSeconds : ℚ := 600
  workerConcurrency : Nat := 4
  deriving DecidableEq, Repr

/-- The slice of `SentinelSettings` the dispatcher reads. -/
structure SentinelSettings where
  incidentCards : List IncidentCard := []
  dispatcher : PrometheusDispatcherSettings := {}
  deriving DecidableEq, Repr

/-- `DispatcherResult` from `models.py`. -/
structure DispatcherResult where
  incidentCard : Option IncidentCard := none
  status : String
  detail : Option String := none
  deriving DecidableEq, Repr

/-! ### `dispatcher/prometheus.py` — `PrometheusDispatcher` -/

/-- Mutable state of a `PrometheusDispatcher`: the card index built in
`__init__`, the dedupe cache (`dedupe_key -> expires_at`), and the bounded
queue.  Wallclock instants are exact rationals. -/
structure DispatcherState where
  cardIndex : PyDict IncidentCard
  dedupeCache : PyDict ℚ
  queue : List IncidentNotification
  queueSize : Nat
  dedupeTtlSeconds : ℚ
  deriving DecidableEq, Repr

/-- `PrometheusDispatcher.__init__`: the card index is the dict
comprehension `{card.resource: card for card in settings.incident_cards}`;
cache and queue start empty. -/
def initDispatcherState (settings : SentinelSettings) : DispatcherState :=
  { cardIndex := dictFromPairs (settings.incidentCards.map fun c => (c.resource, c))
    dedupeCache := []
    queue := []
    queueSize := settings.dispatcher.queueSize
    dedupeTtlSeconds := settings.dispatcher.dedupeTtlSeconds }

/-- `PrometheusDispatcher._purge_expired`: delete entries with
`expires_at <= now`. -/
def purgeExpired (cache : PyDict ℚ) (now : ℚ) : PyDict ℚ :=
  cache.filter (fun p => !decide (p.2 ≤ now))

/-- The dedupe test of `dispatch`:
`dedupe_key in self._dedupe_cache and self._dedupe_cache[dedupe_key] > now`. -/
def cacheHit (cache : PyDict ℚ) (k : String) (now : ℚ) : Bool :=
  match dictGet cache k with
  | some expiresAt => now < expiresAt
  | none => false

/-- `PrometheusDispatcher.dispatch` as a pure state transformer: purge the
cache, test the dedupe key, look up the card, enqueue unless the queue is
at capacity, and only then record the dedupe entry. -/
def dispatchNotification (st : DispatcherState) (n : IncidentNotification)
    (now : ℚ) : DispatcherResult × DispatcherState :=
  let cache := purgeExpired st.dedupeCache now
  let st1 := { st with dedupeCache := cache }
  let k := dedupeKey n.resource
  if cacheHit cache k now then
    ({ status := "duplicate", detail := some "dedupe cache hit" }, st1)
  else
    match dictGet st.cardIndex n.resource.name with
    | none => ({ status := "dropped", detail := some "no incident card" }, st1)
    | some card =>
        if st.queueSize ≤ st.queue.length then
          ({ status := "dropped", detail := some "queue full" }, st1)
        else
          ({ incidentCard := some card, status := "queued" },
            { st1 with
                dedupeCache := dictInsert k (now + st.dedupeTtlSeconds) cache
                queue := st.queue ++ [n] })

theorem dictGet_filter_of_pred (d : PyDict α) (pred : String × α → Bool)
    (k : String) (v : α) (h : dictGet d k = some v) (hp : pred (k, v) = true) :
    dictGet (d.filter pred) k = some v := by
  induction d with
  | nil => simp [dictGet] at h
  | cons p rest ih =>
      by_cases hk : p.1 = k
      · have hv : p.2 = v := by
          simpa [dictGet, hk] using h
        have hpair : p = (k, v) := Prod.ext hk hv
        rw [hpair, List.filter_cons, if_pos (by simpa using hp)]
        simp [dictGet]
      · have h' : dictGet rest k = some v := by
          simpa [dictGet, hk] using h
        rw [List.filter_cons]
        by_cases hpred : pred p = true
        · simp only [if_pos (by simpa using hpred)]
          simp [dictGet, hk, ih h']
        · rw [if_neg (by simpa using hpred)]
          exact ih h'

/-- Entries surviving `_purge_expired` are strictly unexpired. -/
theorem purgeExpired_mem_gt (cache : PyDict ℚ) (now : ℚ) (k : String) (e : ℚ)
    (h : dictGet (purgeExpired cache now) k = some e) : now < e := by
  induction cache with
  | nil => simp [purgeExpired, dictGet] at h
  | cons p rest ih =>
      unfold purgeExpired at h ih
      rw [List.filter_cons] at h
      by_cases hkeep : p.2 ≤ now
      · rw [if_neg (by simpa using hkeep)] at h
        exact ih h
      · rw [if_pos (by simpa using hkeep)] at h
        by_cases hk : p.1 = k
        · have : p.2 = e := by simpa [dictGet, hk] using h
          exact this ▸ lt_of_not_le hkeep
        · exact ih (by simpa [dictGet, hk] using h)

/-- After purging, the dedupe test is simply key presence. -/
theorem cacheHit_eq_false_iff (cache : PyDict ℚ) (now : ℚ) (k : String) :
    cacheHit (purgeExpired cache now) k now = false ↔
      dictGet (purgeExpired cache now) k = none := by
  unfold cacheHit
  cases h : dictGet (purgeExpired cache now) k with
  | none => simp
  | some e =>
      have := purgeExpired_mem_gt cache now k e h
      simp [this]

/-- Shape of the post-state of an admitting (`"queued"`) dispatch. -/
theorem dispatch_queued_state (st : DispatcherState) (n : IncidentNotification)
    (now : ℚ) (h : (dispatchNotification st n now).1.status = "queued") :
    (dispatchNotification st n now).2 =
      { st with
          dedupeCache :=
            dictInsert (dedupeKey n.resource) (now + st.dedupeTtlSeconds)
              (purgeExpired st.dedupeCache now)
          queue := st.queue ++ [n] } := by
  by_cases hhit : cacheHit (purgeExpired st.dedupeCache now) (dedupeKey n.resource) now
  · simp [dispatchNotification, hhit] at h
  · cases hcard : dictGet st.cardIndex n.resource.name with
    | none => simp [dispatchNotification, hhit, hcard] at h
    | some card =>
        by_cases hfull : st.queueSize ≤ st.queue.length
        · simp [dispatchNotification, hhit, hcard, hfull] at h
        · simp [dispatchNotification, hhit, hcard, hfull]

theorem dispatch_ttl_unchanged (st : DispatcherState) (n : IncidentNotification)
    (now : ℚ) :
    (dispatchNotification st n now).2.dedupeTtlSeconds = st.dedupeTtlSeconds := by
  by_cases hhit : cacheHit (purgeExpired st.dedupeCache now) (dedupeKey n.resource) now
  · simp [dispatchNotification, hhit]
  · cases hcard : dictGet st.cardIndex n.resource.name with
    | none => simp [dispatchNotification, hhit, hcard]
    | some card =>
        by_cases hfull : st.queueSize ≤ st.queue.length
        · simp [dispatchNotification, hhit, hcard, hfull]
        · simp [dispatchNotification, hhit, hcard, hfull]

/-- C4 — when the dedupe key is not live, a card exists, and the queue is at
capacity, `dispatch` returns `dropped / "queue full"`, the dedupe cache is
only purged (the key is NOT inserted), and the key remains absent, so a
retry is not reported as a duplicate. -/
theorem dispatch_queue_full_drops_without_dedupe (st : DispatcherState)
    (n : IncidentNotification) (now : ℚ) (card : IncidentCard)
    (hmiss : dictGet (purgeExpired st.dedupeCache now) (dedupeKey n.resource) = none)
    (hcard : dictGet st.cardIndex n.resource.name = some card)
    (hfull : st.queueSize ≤ st.queue.length) :
    dispatchNotification st n now =
      ({ status := "dropped", detail := some "queue full" },
        { st with dedupeCache := purgeExpired st.dedupeCache now }) ∧
    dictGet (dispatchNotification st n now).2.dedupeCache (dedupeKey n.resource) =
      none := by
  have hhit : cacheHit (purgeExpired st.dedupeCache now) (dedupeKey n.resource) now
      = false := (cacheHit_eq_false_iff _ _ _).mpr hmiss
  constructor
  · simp [dispatchNotification, hhit, hcard, hfull]
  · simp [dispatchNotification, hhit, hcard, hfull, hmiss]

/-- Concrete card and notification for the dispatcher witnesses. -/
def cardWeb : IncidentCard :=
  { name := "high-latency", resource := "web-tier"
    promptTemplate := "prompts/high-latency.md" }

def notifWeb : IncidentNotification :=
  { resource :=
      { type := "prometheus_alert", name := "web-tier"
        labels := [], annotations := [] } }

/-- A dispatcher whose queue (capacity 1) is already full. -/
def stQueueFull : DispatcherState :=
  { cardIndex := dictFromPairs [("web-tier", cardWeb)]
    dedupeCache := []
    queue := [notifWeb]
    queueSize := 1
    dedupeTtlSeconds := 600 }

/-- Witness for C4 at a concrete full-queue dispatcher. -/
theorem dispatch_queue_full_drops_without_dedupe_witness :
    dispatchNotification stQueueFull notifWeb 0 =
      ({ status := "dropped", detail := some "queue full" },
        { stQueueFull with dedupeCache := purgeExpired stQueueFull.dedupeCache 0 }) ∧
    dictGet (dispatchNotification stQueueFull notifWeb 0).2.dedupeCache
      (dedupeKey notifWeb.resource) = none :=
  dispatch_queue_full_drops_without_dedupe stQueueFull notifWeb 0 cardWeb
    (by decide) (by decide) (by decide)

/-- C5 — if N1 was admitted (`"queued"`) and N2 with the same dedupe key is
dispatched strictly within `dedupe_ttl_seconds` of N1's admission, the
second dispatch returns `duplicate / "dedupe cache hit"` and does not
enqueue N2 (only N1's queue entry exists, so a worker handles exactly one
of the two). -/
theorem dispatch_duplicate_within_ttl (st : DispatcherState)
    (n1 n2 : IncidentNotification) (t1 t2 : ℚ)
    (hqueued : (dispatchNotification st n1 t1).1.status = "queued")
    (hkey : dedupeKey n1.resource = dedupeKey n2.resource)
    (hwithin : t2 < t1 + st.dedupeTtlSeconds) :
    (dispatchNotification (dispatchNotification st n1 t1).2 n2 t2).1 =
      { status := "duplicate", detail := some "dedupe cache hit" } ∧
    (dispatchNotification (dispatchNotification st n1 t1).2 n2 t2).2.queue =
      (dispatchNotification st n1 t1).2.queue := by
  rw [dispatch_queued_state st n1 t1 hqueued]
  set k := dedupeKey n1.resource with hk
  set cache1 :=
    dictInsert k (t1 + st.dedupeTtlSeconds) (purgeExpired st.dedupeCache t1)
    with hc1
  have hget : dictGet cache1 k = some (t1 + st.dedupeTtlSeconds) :=
    dictGet_insert_self _ _ _
  have hsurvives :
      dictGet (purgeExpired cache1 t2) k = some (t1 + st.dedupeTtlSeconds) := by
    apply dictGet_filter_of_pred _ _ _ _ hget
    simp [not_le.mpr hwithin]
  have hhit : cacheHit (purgeExpired cache1 t2) k t2 = true := by
    unfold cacheHit
    rw [hsurvives]
    simp [hwithin]
  rw [hkey] at hhit
  constructor
  · simp [dispatchNotification, hhit]
  · simp [dispatchNotification, hhit]

/-- Dispatcher state immediately after C5's first (admitting) dispatch,
used to witness the theorem. -/
def stFresh : DispatcherState := initDispatcherState { incidentCards := [cardWeb] }

/-- Witness for C5: dispatch the same resource twice at times 0 and 1 with
TTL 600. -/
theorem dispatch_duplicate_within_ttl_witness :
    (dispatchNotification (dispatchNotification stFresh notifWeb 0).2 notifWeb 1).1 =
      { status := "duplicate", detail := some "dedupe cache hit" } ∧
    (dispatchNotification (dispatchNotification stFresh notifWeb 0).2 notifWeb 1).2.queue =
      (dispatchNotification stFresh notifWeb 0).2.queue :=
  dispatch_duplicate_within_ttl stFresh notifWeb notifWeb 0 1
    (by decide) rfl (by norm_num [stFresh, initDispatcherState])

/-- C10 — a dispatch result carries a card exactly when its status is
`"queued"`, and that card is the one the index maps the notification's
resource name to; `duplicate` and `dropped` results carry no card. -/
theorem dispatch_card_iff_queued (st : DispatcherState)
    (n : IncidentNotification) (now : ℚ) :
    ((dispatchNotification st n now).1.incidentCard ≠ none ↔
      (dispatchNotification st n now).1.status = "queued") ∧
    (∀ c, (dispatchNotification st n now).1.incidentCard = some c →
      dictGet st.cardIndex n.resource.name = some c) := by
  by_cases hhit : cacheHit (purgeExpired st.dedupeCache now) (dedupeKey n.resource) now
  · simp [dispatchNotification, hhit]
  · cases hcard : dictGet st.cardIndex n.resource.name with
    | none => simp [dispatchNotification, hhit, hcard]
    | some card =>
        by_cases hfull : st.queueSize ≤ st.queue.length
        · simp [dispatchNotification, hhit, hcard, hfull]
        · simp [dispatchNotification, hhit, hcard, hfull]

/-- Witness for C10 at a concrete admitting dispatch. -/
theorem dispatch_card_iff_queued_witness :
    ((dispatchNotification stFresh notifWeb 0).1.incidentCard ≠ none ↔
      (dispatchNotification stFresh notifWeb 0).1.status = "queued") ∧
    (∀ c, (dispatchNotification stFresh notifWeb 0).1.incidentCard = some c →
      dictGet stFresh.cardIndex notifWeb.resource.name = some c) :=
  dispatch_card_iff_queued stFresh notifWeb 0

/-- Two distinct cards claiming the same resource, in configuration order. -/
def cardFirstDup : IncidentCard :=
  { name := "card-a", resource := "web-tier", promptTemplate := "prompts/a.md" }

def cardLastDup : IncidentCard :=
  { name := "card-b", resource := "web-tier", promptTemplate := "prompts/b.md" }

def settingsDup : SentinelSettings :=
  { incidentCards := [cardFirstDup, cardLastDup] }

/-- C2 counterexample — with two cards for resource `"web-tier"`, the dict
comprehension `{card.resource: card for card in ...}` lets the LATER card
overwrite the earlier one: the index maps the resource to the second card,
which differs from the first, and dispatch queues with the second card. -/
theorem cardIndex_first_wins_counterexample :
    dictGet (initDispatcherState settingsDup).cardIndex "web-tier" =
      some cardLastDup ∧
    cardLastDup ≠ cardFirstDup ∧
    (dispatchNotification (initDispatcherState settingsDup) notifWeb 0).1 =
      { incidentCard := some cardLastDup, status := "queued" } :=
  ⟨by decide, by decide, by decide⟩

/-- C2 (amended) — when several cards reference the same resource, the card
index maps the resource name to the LAST such card in the settings list
(the earlier ones are overwritten), and a dispatch for that resource from a
fresh dispatcher returns `"queued"` with that last card. -/
theorem cardIndex_last_wins (s : SentinelSettings) (r : String) :
    dictGet (initDispatcherState s).cardIndex r =
      s.incidentCards.reverse.find? (fun c => c.resource = r) ∧
    (∀ (n : IncidentNotification) (now : ℚ) (c : IncidentCard),
      n.resource.name = r →
      s.incidentCards.reverse.find? (fun c => c.resource = r) = some c →
      0 < s.dispatcher.queueSize →
      (dispatchNotification (initDispatcherState s) n now).1 =
        { incidentCard := some c, status := "queued" }) := by
  have hindex : dictGet (initDispatcherState s).cardIndex r =
      s.incidentCards.reverse.find? (fun c => c.resource = r) := by
    show dictGet (dictFromPairs (s.incidentCards.map fun c => (c.resource, c))) r = _
    rw [dictGet_dictFromPairs]
    rw [← List.map_reverse, List.find?_map]
    cases hf : s.incidentCards.reverse.find?
        ((fun p => decide (p.1 = r)) ∘ fun c => (c.resource, c)) with
    | none => exact hf.symm
    | some c =>
        have : s.incidentCards.reverse.find? (fun c => c.resource = r) = some c := hf
        simp [hf, this]
  refine ⟨hindex, ?_⟩
  intro n now c hname hfind hpos
  have hcard : dictGet (initDispatcherState s).cardIndex n.resource.name = some c := by
    rw [hname, hindex, hfind]
  have hhit : cacheHit
      (purgeExpired (initDispatcherState s).dedupeCache now)
      (dedupeKey n.resource) now = false := by
    unfold initDispatcherState purgeExpired cacheHit dictGet
    simp
  have hnotfull : ¬ (initDispatcherState s).queueSize ≤
      (initDispatcherState s).queue.length := by
    unfold initDispatcherState
    simpa using Nat.pos_iff_ne_zero.mp hpos
  simp [dispatchNotification, hhit, hcard, hnotfull]

/-- Witness for the amended C2 at the concrete duplicate configuration. -/
theorem cardIndex_last_wins_witness :
    dictGet (initDispatcherState settingsDup).cardIndex "web-tier" =
      settingsDup.incidentCards.reverse.find? (fun c => c.resource = "web-tier") ∧
    (∀ (n : IncidentNotification) (now : ℚ) (c : IncidentCard),
      n.resource.name = "web-tier" →
      settingsDup.incidentCards.reverse.find? (fun c => c.resource = "web-tier")
        = some c →
      0 < settingsDup.dispatcher.queueSize →
      (dispatchNotification (initDispatcherState settingsDup) n now).1 =
        { incidentCard := some c, status := "queued" }) :=
  cardIndex_last_wins settingsDup "web-tier"

/-! ### `watchers/prometheus.py` — alert matching and resource construction -/

/-- `ResourceDefinition` from `models.py`. -/
structure ResourceDefinition where
  name : String
  type : String := "prometheus_alert"
  filters : PyDict String := []
  annotations : PyDict String := []
  deriving DecidableEq, Repr

/-- The `status` field of an alert payload: absent, a scalar string, or a
mapping with optional `state` / `value` entries. -/
inductive AlertStatus
  | absent
  | scalar (s : String)
  | mapping (state : Option String) (value : Option String)
  deriving DecidableEq, Repr

/-- One active-alert record as consumed by `_handle_alert`; `value` stands
for `str(alert["value"])` when present. -/
structure Alert where
  labels : PyDict String := []
  annotations : PyDict String := []
  status : AlertStatus := .absent
  value : Option String := none
  startsAt : Option String := none
  activeAt : Option String := none
  deriving DecidableEq, Repr

/-- Python truthiness of an optional string: `None` and `""` are falsy. -/
def truthyStr : Option String → Bool
  | some s => s ≠ ""
  | none => false

/-- Python's `a or b` on optional strings. -/
def pyOr (a b : Option String) : Option String :=
  if truthyStr a then a else b

/-- `state` extraction in `_handle_alert`: `status.get("state") or
status.get("value")` when status is a mapping, else the scalar. -/
def alertState : AlertStatus → Option String
  | .absent => none
  | .scalar s => some s
  | .mapping state value => pyOr state value

/-- `_matches_filters` from `watchers/prometheus.py`: every filter entry
must equal the alert label; the empty filter set matches everything. -/
def matchesFilters (labels filters : PyDict String) : Bool :=
  filters.all (fun p => dictGet labels p.1 = some p.2)

/-- The `Resource` built by `_handle_alert` for a matched definition. -/
def buildResource (rdef : ResourceDefinition) (alert : Alert) : Resource :=
  { type := rdef.type
    name := rdef.name
    labels := alert.labels
    annotations := dictMerge rdef.annotations alert.annotations
    state := alertState alert.status
    value := alert.value
    timestamp := pyOr alert.startsAt alert.activeAt }

/-- The resources `_handle_alert` emits for one alert: one per matching
resource definition bound to the watcher, in definition order. -/
def handleAlertResources (defs : List ResourceDefinition) (alert : Alert) :
    List Resource :=
  (defs.filter (fun rdef => matchesFilters alert.labels rdef.filters)).map
    (fun rdef => buildResource rdef alert)

/-- C6 — for every alert matched by a bound resource definition (every
filter entry equals the alert's label; empty filters match all), the
emitted resource has the alert's labels, the definition's type and name,
and annotations equal to the definition's defaults overridden by the
alert's entries. -/
theorem handleAlert_emitted_resource_fields (defs : List ResourceDefinition)
    (alert : Alert) (rdef : ResourceDefinition)
    (hmem : rdef ∈ defs)
    (hsat : ∀ p ∈ rdef.filters, dictGet alert.labels p.1 = some p.2)
    (hnd : (alert.annotations.map Prod.fst).Nodup) :
    matchesFilters alert.labels rdef.filters = true ∧
    buildResource rdef alert ∈ handleAlertResources defs alert ∧
    (buildResource rdef alert).labels = alert.labels ∧
    (buildResource rdef alert).type = rdef.type ∧
    (buildResource rdef alert).name = rdef.name ∧
    (∀ k, dictGet (buildResource rdef alert).annotations k =
      (dictGet alert.annotations k).or (dictGet rdef.annotations k)) := by
  have hmatch : matchesFilters alert.labels rdef.filters = true := by
    unfold matchesFilters
    rw [List.all_eq_true]
    intro p hp
    simpa using hsat p hp
  refine ⟨hmatch, ?_, rfl, rfl, rfl, ?_⟩
  · unfold handleAlertResources
    exact List.mem_map_of_mem _ (List.mem_filter.mpr ⟨hmem, by simpa using hmatch⟩)
  · intro k
    show dictGet (dictMerge rdef.annotations alert.annotations) k = _
    exact dictGet_dictMerge_nodup _ _ _ hnd

/-- Concrete definition and alert for the C6 witness. -/
def rdefWeb : ResourceDefinition :=
  { name := "web-tier"
    filters := [("alertname", "HighLatency")]
    annotations := [("runbook", "rb1"), ("summary", "default")] }

def alertHigh : Alert :=
  { labels := [("alertname", "HighLatency"), ("severity", "page")]
    annotations := [("summary", "p99 high")]
    status := .scalar "firing"
    startsAt := some "2026-01-01T00:00:00Z" }

/-- Witness for C6 at a concrete matched alert. -/
theorem handleAlert_emitted_resource_fields_witness :
    matchesFilters alertHigh.labels rdefWeb.filters = true ∧
    buildResource rdefWeb alertHigh ∈ handleAlertResources [rdefWeb] alertHigh ∧
    (buildResource rdefWeb alertHigh).labels = alertHigh.labels ∧
    (buildResource rdefWeb alertHigh).type = rdefWeb.type ∧
    (buildResource rdefWeb alertHigh).name = rdefWeb.name ∧
    (∀ k, dictGet (buildResource rdefWeb alertHigh).annotations k =
      (dictGet alertHigh.annotations k).or (dictGet rdefWeb.annotations k)) :=
  handleAlert_emitted_resource_fields [rdefWeb] alertHigh rdefWeb
    (by decide) (by decide) (by decide)

/-! ### `models.py` — `_parse_duration_seconds`

The Python code computes on floats and `str`.  The embedding computes on
exact unreduced fractions (`Frac`) and `List Char`, which agree with the
float/str results on the duration grammar's values and reduce inside the
kernel. -/

/-- Unreduced fraction with positive denominator by construction: an exact
stand-in for the float arithmetic of `_parse_duration_seconds`. -/
structure Frac where
  num : ℤ
  den : ℕ := 1
  deriving DecidableEq, Repr

/-- Float multiplication, `den * den` staying positive. -/
def fracMul (a b : Frac) : Frac :=
  { num := a.num * b.num, den := a.den * b.den }

/-- ASCII whitespace removed by `str.strip()`. -/
def isSpaceChar (c : Char) : Bool :=
  c = ' ' || c = '\t' || c = '\n' || c = '\r'

/-- `str.strip()` on the character list. -/
def trimChars (cs : List Char) : List Char :=
  ((cs.dropWhile isSpaceChar).reverse.dropWhile isSpaceChar).reverse

/-- `str.lower()` on an ASCII character. -/
def lowerChar (c : Char) : Char :=
  if 'A' ≤ c && c ≤ 'Z' then Char.ofNat (c.toNat + 32) else c

/-- `str.endswith(suffix)` on character lists. -/
def endsWithList (cs suffix : List Char) : Bool :=
  cs.reverse.take suffix.length = suffix.reverse

/-- Value of a digit string, `none` on a non-digit. -/
def digitsVal (cs : List Char) : Option Nat :=
  cs.foldl
    (fun acc c =>
      match acc with
      | none => none
      | some n => if c.isDigit then some (n * 10 + (c.toNat - 48)) else none)
    (some 0)

/-- `float(text)` restricted to plain decimal numerals (optional sign,
digits, at most one dot), the fragment the duration grammar uses;
scientific notation, `inf`/`nan` and underscores are outside the modelled
fragment. -/
def parseDecimal (cs : List Char) : Option Frac :=
  let signed : ℤ × List Char :=
    match cs with
    | '-' :: rest => (-1, rest)
    | '+' :: rest => (1, rest)
    | _ => (1, cs)
  let sign := signed.1
  let body := signed.2
  match body.splitOn '.' with
  | [ds] =>
      if ds.isEmpty then none
      else (digitsVal ds).map (fun n => { num := sign * n })
  | [intPart, fracPart] =>
      if intPart.isEmpty && fracPart.isEmpty then none
      else
        match digitsVal intPart, digitsVal fracPart with
        | some i, some f =>
            some { num := sign * ((i : ℤ) * 10 ^ fracPart.length + (f : ℤ))
                   den := 10 ^ fracPart.length }
        | _, _ => none
  | _ => none

/-- Python's `round()` (half to even) of `num/den`, for positive `den`:
`f = ⌊num/den⌋`, then compare twice the remainder against the
denominator. -/
def pythonRound (a : Frac) : ℤ :=
  let f := Int.fdiv a.num (a.den : ℤ)
  let rem := a.num - f * (a.den : ℤ)
  if 2 * rem < (a.den : ℤ) then f
  else if (a.den : ℤ) < 2 * rem then f + 1
  else if f % 2 = 0 then f else f + 1

/-- The argument of `_parse_duration_seconds`: an `int`/`float`, or a
string. -/
inductive DurationInput
  | num (q : Frac)
  | str (s : String)
  deriving DecidableEq, Repr

/-- Tail of `_parse_duration_seconds`: reject non-positive durations
(`num ≤ 0` with the positive denominator), then
`int(max(1, round(seconds)))` (the `max` spelled as a comparison so it
computes). -/
def finishDuration (seconds : Frac) : Option ℤ :=
  if seconds.num ≤ 0 then none
  else some (if pythonRound seconds < 1 then 1 else pythonRound seconds)

/-- Unit suffix handling of `_parse_duration_seconds`: `ms` first, then a
single `s`/`m`/`h`, else multiplier 1. -/
def splitUnit (text : List Char) : Frac × List Char :=
  if endsWithList text ['m', 's'] then
    ({ num := 1, den := 1000 }, text.take (text.length - 2))
  else if endsWithList text ['s'] then ({ num := 1 }, text.take (text.length - 1))
  else if endsWithList text ['m'] then ({ num := 60 }, text.take (text.length - 1))
  else if endsWithList text ['h'] then
    ({ num := 3600 }, text.take (text.length - 1))
  else ({ num := 1 }, text)

/-- `_parse_duration_seconds` from `models.py`; `none` stands for the
raised `ValueError` / `TypeError`. -/
def parseDurationSeconds : DurationInput → Option ℤ
  | .num q => finishDuration q
  | .str s =>
      let text := (trimChars s.toList).map lowerChar
      if text.isEmpty then none
      else
        match parseDecimal (splitUnit text).2 with
        | none => none
        | some q => finishDuration (fracMul q (splitUnit text).1)

theorem finishDuration_ge_one (q : Frac) (r : ℤ)
    (h : finishDuration q = some r) : 1 ≤ r := by
  unfold finishDuration at h
  by_cases hq : q.num ≤ 0
  · simp [hq] at h
  · rw [if_neg hq] at h
    cases h
    by_cases hr : pythonRound q < 1
    · simp [hr]
    · simp [hr]
      omega

/-- C8 — duration parsing normalises to integer seconds with a minimum of
one: `"5s"`, the number `5`, and `"5000ms"` all yield 5; the sub-second
string `"500ms"` yields 1; and every accepted duration is at least 1. -/
theorem parseDuration_normalises :
    parseDurationSeconds (.str "5s") = some 5 ∧
    parseDurationSeconds (.num { num := 5 }) = some 5 ∧
    parseDurationSeconds (.str "5000ms") = some 5 ∧
    parseDurationSeconds (.str "500ms") = some 1 ∧
    (∀ v r, parseDurationSeconds v = some r → 1 ≤ r) := by
  refine ⟨by decide, by decide, by decide, by decide, ?_⟩
  intro v r h
  cases v with
  | num q => exact finishDuration_ge_one q r h
  | str s =>
      simp only [parseDurationSeconds] at h
      by_cases h0 : ((trimChars s.toList).map lowerChar).isEmpty = true
      · rw [if_pos h0] at h
        exact absurd h (by simp)
      · rw [if_neg h0] at h
        cases hp : parseDecimal (splitUnit ((trimChars s.toList).map lowerChar)).2 with
        | none =>
            rw [hp] at h
            exact absurd h (by simp)
        | some q =>
            rw [hp] at h
            exact finishDuration_ge_one _ r h

/-- Witness for C8: the minimum bound applied at the accepted input `5`. -/
theorem parseDuration_normalises_witness : (1 : ℤ) ≤ 5 :=
  parseDuration_normalises.2.2.2.2 (.num { num := 5 }) 5 (by decide)

/-! ### `sinks/__init__.py` — `SinkDispatcher` -/

/-- `SinkEvent` from `sinks/__init__.py` (payload embedded as a string
dict). -/
structure SinkEvent where
  type : String
  cardName : String
  resourceName : String
  message : String
  payload : PyDict String := []

/-- A sink's `emit` method as an effectful function; `Except` models a
raised exception. -/
abbrev SinkBehavior := SinkEvent → Except String Unit

/-- The per-sink `try/except` guard inside `SinkDispatcher.emit`: a sink's
exception is logged and swallowed, never propagated. -/
def guardedEmit (sink : SinkBehavior) (e : SinkEvent) : Except String Unit :=
  match sink e with
  | .ok _ => .ok ()
  | .error _ => .ok ()

/-- One iteration of the `SinkDispatcher.emit` loop: unknown names are
skipped with a warning, known sinks are called inside the guard. -/
def emitOne (sinks : PyDict SinkBehavior) (e : SinkEvent) (sinkName : String) :
    Except String Unit :=
  match dictGet sinks sinkName with
  | none => .ok ()
  | some sink => guardedEmit sink e

/-- `SinkDispatcher.emit` from `sinks/__init__.py`: early return on an
empty name list, then the guarded loop over the names. -/
def sinkDispatcherEmit (sinks : PyDict SinkBehavior) (sinkNames : List String)
    (e : SinkEvent) : Except String Unit :=
  if sinkNames.isEmpty then .ok ()
  else sinkNames.foldlM (fun _ sinkName => emitOne sinks e sinkName) ()

theorem guardedEmit_ok (sink : SinkBehavior) (e : SinkEvent) :
    guardedEmit sink e = .ok () := by
  unfold guardedEmit
  cases sink e <;> rfl

theorem emitOne_ok (sinks : PyDict SinkBehavior) (e : SinkEvent)
    (sinkName : String) : emitOne sinks e sinkName = .ok () := by
  unfold emitOne
  cases dictGet sinks sinkName with
  | none => rfl
  | some sink => exact guardedEmit_ok sink e

theorem emitLoop_ok (sinks : PyDict SinkBehavior) (e : SinkEvent)
    (sinkNames : List String) :
    List.foldlM (fun _ sinkName => emitOne sinks e sinkName) () sinkNames =
      .ok () := by
  induction sinkNames with
  | nil => rfl
  | cons name rest ih =>
      rw [List.foldlM_cons, emitOne_ok sinks e name]
      exact ih

/-- C9 — `SinkDispatcher.emit` never raises, whatever the sinks do: every
name is processed (missing sinks skipped, failing sinks guarded) and the
call returns normally. -/
theorem sinkDispatcherEmit_never_raises (sinks : PyDict SinkBehavior)
    (sinkNames : List String) (e : SinkEvent) :
    sinkDispatcherEmit sinks sinkNames e = .ok () := by
  unfold sinkDispatcherEmit
  by_cases h : sinkNames.isEmpty
  · simp [h]
  · rw [if_neg h]
    exact emitLoop_ok sinks e sinkNames

/-! ### `mcp_integration/registry.py` — identifier resolution -/

/-- The fields of `HostedMCPServer` the registry reads. -/
structure HostedMCPServer where
  name : String
  serverUrl : Option String := none
  headers : PyDict String := []
  defaultAllowedTools : Option (List String) := none
  deriving DecidableEq, Repr

/-- `_GroupedTools` from `registry.py`; `explicit` is a Python `set`,
embedded as a duplicate-free list (its order never matters: it is only
read through `sorted` or emptiness tests). -/
structure GroupedTools where
  explicit : List String := []
  wildcard : Bool := false
  deriving DecidableEq, Repr

/-- Python's code-point string comparison, spelled out so it computes:
`a <= b` as equality or lexicographic less-than on code points. -/
def charListLt : List Char → List Char → Bool
  | [], [] => false
  | [], _ :: _ => true
  | _ :: _, [] => false
  | a :: as, b :: bs =>
      if a.toNat < b.toNat then true
      else if b.toNat < a.toNat then false
      else charListLt as bs

def stringLe (a b : String) : Bool :=
  a = b || charListLt a.toList b.toList

/-- `str.strip()` (ASCII whitespace). -/
def strTrim (s : String) : String :=
  ⟨trimChars s.toList⟩

/-- `str.partition(".")`: text before the first dot, whether a dot was
found, and the text after it. -/
def partitionDot (s : String) : String × Bool × String :=
  match s.toList.splitOn '.' with
  | [] => (s, false, "")
  | [x] => (⟨x⟩, false, "")
  | x :: rest => (⟨x⟩, true, ⟨List.intercalate ['.'] rest⟩)

/-- Python `set.add`. -/
def setAdd (s : List String) (x : String) : List String :=
  if s.contains x then s else s ++ [x]

/-- One iteration of the grouping loop in `resolve`: strip the identifier,
skip empty ones and ones with an empty server part, record a wildcard for
`server`, `server.` and `server.*`, else add the explicit tool name. -/
def groupedInsert (g : PyDict GroupedTools) (identifier : String) :
    PyDict GroupedTools :=
  let ident := strTrim identifier
  if ident = "" then g
  else
    let parts := partitionDot ident
    let server := parts.1
    let sep := parts.2.1
    let toolName := parts.2.2
    if server = "" then g
    else
      let cur := (dictGet g server).getD {}
      if !sep then dictInsert server { cur with wildcard := true } g
      else if toolName = "" || toolName = "*" then
        dictInsert server { cur with wildcard := true } g
      else dictInsert server { cur with explicit := setAdd cur.explicit toolName } g

/-- Python truthiness of `default_allowed_tools`: `None` and `[]` are
falsy. -/
def truthyTools : Option (List String) → Bool
  | some l => !l.isEmpty
  | none => false

/-- `list(dict.fromkeys(l))`: dedupe preserving first occurrence. -/
def dedupPreserve (l : List String) : List String :=
  l.foldl (fun acc t => if acc.contains t then acc else acc ++ [t]) []

/-- `MCPServerRegistry._derive_allowed_tools`: wildcard or no explicit
tools fall back to the (deduped) default allowlist or `None` ("all
tools"); explicit tools are returned sorted. -/
def deriveAllowedTools (server : HostedMCPServer) (grouped : GroupedTools) :
    Option (List String) :=
  if grouped.wildcard then
    if truthyTools server.defaultAllowedTools then
      some (dedupPreserve (server.defaultAllowedTools.getD []))
    else none
  else if grouped.explicit.isEmpty then
    if truthyTools server.defaultAllowedTools then
      some (dedupPreserve (server.defaultAllowedTools.getD []))
    else none
  else some (grouped.explicit.mergeSort stringLe)

/-- The handle `resolve` returns for one server.  The live
`MCPServerStreamableHttp` object keeps the name, URL and headers (with a
fixed 30s timeout and tool-list caching); it does not retain the
allowlist, so the embedding additionally records the allowlist
`_derive_allowed_tools` produced for the server during resolution — the
"allowed-tools of the handle" the spec describes. -/
structure ResolvedHandle where
  name : String
  serverUrl : Option String := none
  headers : PyDict String := []
  allowedTools : Option (List String) := none
  deriving DecidableEq, Repr

/-- Per-server step of `resolve`: unknown servers are skipped, an empty
derived allowlist (as opposed to `None`) is skipped, otherwise a handle is
appended. -/
def resolveStep (serverIndex : PyDict HostedMCPServer)
    (acc : List ResolvedHandle) (entry : String × GroupedTools) :
    List ResolvedHandle :=
  match dictGet serverIndex entry.1 with
  | none => acc
  | some cfg =>
      let allowed := deriveAllowedTools cfg entry.2
      if allowed = some [] then acc
      else
        acc ++ [{ name := cfg.name, serverUrl := cfg.serverUrl
                  headers := cfg.headers, allowedTools := allowed }]

/-- `MCPServerRegistry.resolve`: empty identifier lists resolve to nothing;
otherwise group the identifiers by server and emit one handle per known
server group. -/
def resolve (servers : List HostedMCPServer) (ids : List String) :
    List ResolvedHandle :=
  if ids.isEmpty then []
  else
    (ids.foldl groupedInsert []).foldl
      (resolveStep (dictFromPairs (servers.map fun s => (s.name, s)))) []

/-- C3 — for a registry whose lookup of `"grafana"` yields a server with no
`default_allowed_tools`: `resolve(["grafana.*"])` is exactly one handle
with allowed-tools `None` (all tools), and
`resolve(["grafana.alerts", "grafana.search"])` is exactly one handle with
allowed-tools `["alerts", "search"]` (sorted). -/
theorem resolve_grafana_allowed_tools (servers : List HostedMCPServer)
    (g : HostedMCPServer)
    (hlook : dictGet (dictFromPairs (servers.map fun s => (s.name, s)))
      "grafana" = some g)
    (hdef : g.defaultAllowedTools = none) :
    resolve servers ["grafana.*"] =
      [{ name := g.name, serverUrl := g.serverUrl, headers := g.headers
         allowedTools := none }] ∧
    resolve servers ["grafana.alerts", "grafana.search"] =
      [{ name := g.name, serverUrl := g.serverUrl, headers := g.headers
         allowedTools := some ["alerts", "search"] }] := by
  have hgroup1 : (["grafana.*"] : List String).foldl groupedInsert [] =
      [("grafana", { explicit := [], wildcard := true })] := by decide
  have hgroup2 :
      (["grafana.alerts", "grafana.search"] : List String).foldl
        groupedInsert [] =
      [("grafana", { explicit := ["alerts", "search"], wildcard := false })] := by
    decide
  have hsort : (["alerts", "search"] : List String).mergeSort stringLe =
      ["alerts", "search"] :=
    List.mergeSort_of_sorted (by decide)
  constructor
  · unfold resolve
    rw [hgroup1]
    simp only [List.isEmpty_cons, List.foldl_cons, List.foldl_nil, resolveStep,
      hlook]
    simp [deriveAllowedTools, hdef, truthyTools]
  · unfold resolve
    rw [hgroup2]
    simp only [List.isEmpty_cons, List.foldl_cons, List.foldl_nil, resolveStep,
      hlook]
    simp [deriveAllowedTools, hdef, truthyTools, hsort]

/-- Concrete registry for the C3 witness. -/
def grafanaServer : HostedMCPServer :=
  { name := "grafana", serverUrl := some "https://grafana.example/api" }

/-- Witness for C3 at a one-server registry. -/
theorem resolve_grafana_allowed_tools_witness :
    resolve [grafanaServer] ["grafana.*"] =
      [{ name := grafanaServer.name, serverUrl := grafanaServer.serverUrl
         headers := grafanaServer.headers, allowedTools := none }] ∧
    resolve [grafanaServer] ["grafana.alerts", "grafana.search"] =
      [{ name := grafanaServer.name, serverUrl := grafanaServer.serverUrl
         headers := grafanaServer.headers
         allowedTools := some ["alerts", "search"] }] :=
  resolve_grafana_allowed_tools [grafanaServer] grafanaServer
    (by decide) (by decide)

/-! ### `agent/orchestrator.py` — `run_incident` connect / run / cleanup -/

/-- Behaviour of one remote MCP server session inside a `run_incident`
call: whether its `connect()` raises and whether its `cleanup()` raises
(cleanup errors are caught and logged either way, so they do not affect
control flow). -/
structure ServerBehavior where
  connectFails : Bool := false
  cleanupFails : Bool := false
  deriving DecidableEq, Repr

/-- The connect loop of `run_incident` (it precedes the `try` statement):
servers are connected in order; the first failing `connect()` re-raises
immediately, leaving the loop.  Returns the indices whose `connect()`
succeeded and the index of the failure, if any. -/
def connectSequenceAux (i : Nat) : List ServerBehavior → List Nat × Option Nat
  | [] => ([], none)
  | s :: rest =>
      if s.connectFails then ([], some i)
      else
        let r := connectSequenceAux (i + 1) rest
        (i :: r.1, r.2)

def connectSequence (servers : List ServerBehavior) : List Nat × Option Nat :=
  connectSequenceAux 0 servers

/-- `_cleanup_mcp_servers`: iterate every server and invoke `cleanup()`
once, any exception caught and logged.  Result: per-server cleanup
invocation count. -/
def cleanupCounts (servers : List ServerBehavior) : List Nat :=
  servers.map (fun _ => 1)

/-- `run_incident` reduced to its session-lifecycle skeleton.  The connect
loop runs before the `try`; a connect failure therefore propagates without
entering the `try/except/finally`, and no cleanup runs.  When every
connect succeeds, the runner is awaited inside the `try` and the `finally`
calls `_cleanup_mcp_servers` on both the success and the raise path.
Result: the outcome (`error` for a raised exception) and the cleanup
invocation count per server. -/
def runIncident (servers : List ServerBehavior) (runnerRaises : Bool) :
    Except Unit Unit × List Nat :=
  match (connectSequence servers).2 with
  | some _ => (.error (), servers.map (fun _ => 0))
  | none =>
      ((if runnerRaises then .error () else .ok ()), cleanupCounts servers)

/-- C1 — evaluation of `run_incident` at the decisive inputs.  When the
runner succeeds or raises, every server is cleaned up exactly once (counts
`[1, 1]`).  But when the second server's `connect()` raises midway, the
first server's `connect()` succeeded (connected indices `[0]`), the call
re-raises, and NO cleanup runs (counts `[0, 0]`) — the already-connected
session is left open, contrary to the claim. -/
theorem runIncident_connect_failure_skips_cleanup :
    (connectSequence [⟨false, false⟩, ⟨true, false⟩]).1 = [0] ∧
    runIncident [⟨false, false⟩, ⟨true, false⟩] false = (.error (), [0, 0]) ∧
    runIncident [⟨false, false⟩, ⟨false, false⟩] true = (.error (), [1, 1]) ∧
    runIncident [⟨false, false⟩, ⟨false, false⟩] false = (.ok (), [1, 1]) :=
  ⟨rfl, rfl, rfl, rfl⟩
